import Mathlib

/-!
Shallow embedding of the NetRailPipeline repository (UK railway data
pipeline) together with theorems checking its natural-language
specification against the code.

Conventions used throughout:
* Python `datetime.date`/`datetime.datetime` values (always at midnight in
  the code under study) are modelled by `PyDate` triples together with the
  proleptic-Gregorian ordinal `toordinal`, exactly as CPython computes it.
  Python's year-range limit (1..9999) is not modelled; dates are treated as
  unbounded proleptic Gregorian.
* Fallible Python code is modelled with `Except`; a raised exception is an
  `Except.error` carrying a `PyErr` tag.
* Python dicts are modelled as insertion-ordered association lists and
  Python sets of strings as insertion-ordered duplicate-free lists; claims
  about dict/set contents are read as statements about membership.
-/

namespace NetRail

/-- Exception tags for the Python exceptions raised by the embedded code. -/
inductive PyErr where
  | typeError : PyErr
  | valueError : String → PyErr
  | fileNotFound : String → PyErr
  | indexError : PyErr
deriving DecidableEq

/-! ## Calendar model (CPython `datetime`) -/

/-- Proleptic-Gregorian leap-year rule used by CPython `datetime`. -/
def isLeap (y : Nat) : Prop := (y % 4 = 0 ∧ y % 100 ≠ 0) ∨ y % 400 = 0

instance (y : Nat) : Decidable (isLeap y) :=
  inferInstanceAs (Decidable ((y % 4 = 0 ∧ y % 100 ≠ 0) ∨ y % 400 = 0))

/-- Days before month `m` in a non-leap year (CPython `_days_before_month`). -/
def daysBeforeMonth : Nat → Nat
  | 1 => 0
  | 2 => 31
  | 3 => 59
  | 4 => 90
  | 5 => 120
  | 6 => 151
  | 7 => 181
  | 8 => 212
  | 9 => 243
  | 10 => 273
  | 11 => 304
  | 12 => 334
  | _ => 0

/-- CPython `datetime.date.toordinal`: 0001-01-01 has ordinal 1.  Subtracting
two Python datetimes at midnight yields exactly the difference of these
ordinals, in days. -/
def toordinal (y m d : Nat) : Nat :=
  365 * (y - 1) + (y - 1) / 4 - (y - 1) / 100 + (y - 1) / 400
    + daysBeforeMonth m + (if 2 < m ∧ isLeap y then 1 else 0) + d

/-- A Python `datetime` at midnight, as used by the delay-extraction code. -/
structure PyDate where
  year : Nat
  month : Nat
  day : Nat
deriving DecidableEq

/-- The proleptic-Gregorian ordinal of a `PyDate`. -/
def PyDate.ord (t : PyDate) : Nat := toordinal t.year t.month t.day

/-- Python `datetime` strict order (chronological; lexicographic on the
(year, month, day) triple for calendar dates). -/
def PyDate.Lt (a b : PyDate) : Prop :=
  a.year < b.year ∨ (a.year = b.year ∧
    (a.month < b.month ∨ (a.month = b.month ∧ a.day < b.day)))

/-- Python `datetime` non-strict order. -/
def PyDate.Le (a b : PyDate) : Prop :=
  a.year < b.year ∨ (a.year = b.year ∧
    (a.month < b.month ∨ (a.month = b.month ∧ a.day ≤ b.day)))

instance (a b : PyDate) : Decidable (PyDate.Lt a b) :=
  inferInstanceAs (Decidable (a.year < b.year ∨ (a.year = b.year ∧
    (a.month < b.month ∨ (a.month = b.month ∧ a.day < b.day)))))

instance (a b : PyDate) : Decidable (PyDate.Le a b) :=
  inferInstanceAs (Decidable (a.year < b.year ∨ (a.year = b.year ∧
    (a.month < b.month ∨ (a.month = b.month ∧ a.day ≤ b.day)))))

theorem PyDate.not_lt_of_le {a b : PyDate} (h : PyDate.Le a b) :
    ¬ PyDate.Lt b a := by
  unfold PyDate.Le at h
  unfold PyDate.Lt
  omega

/-! ## `rail_io/extract_delay.py`: business-period map -/

/-- Constant `_YEAR_START` from `extract_delay.py`: the UK rail fiscal year starts on
(month, day) = (4, 1). -/
def _YEAR_START : Nat × Nat := (4, 1)

/-- Constant `_PART_DURATION.days` from `extract_delay.py`: 28-day periods. -/
def _PART_DURATION : Nat := 28

/-- Function `_business_year_start`: start of the business year containing `t`
(the year is decremented when (month, day) precedes `year_start`). -/
def _business_year_start (t : PyDate) (ys : Nat × Nat) : PyDate :=
  let y := if t.month < ys.1 ∨ (t.month = ys.1 ∧ t.day < ys.2)
    then t.year - 1 else t.year
  ⟨y, ys.1, ys.2⟩

/-- Ordinal of `dt.datetime(year, *year_start)` (the `by_start` of the loop). -/
def byStartOrd (y : Nat) (ys : Nat × Nat) : Nat := toordinal y ys.1 ys.2

/-- Ordinal of `dt.datetime(year + 1, *year_start) - dt.timedelta(days=1)`
(the `by_end` of the loop). -/
def byEndOrd (y : Nat) (ys : Nat × Nat) : Nat := toordinal (y + 1) ys.1 ys.2 - 1

/-- The loop's `total_days = (by_end - by_start).days + 1`. -/
def totalDaysFY (y : Nat) (ys : Nat × Nat) : Nat :=
  byEndOrd y ys - byStartOrd y ys + 1

/-- The loop's `parts_per_year = math.ceil(total_days / part_duration.days)`, as exact
ceiling division (the float division is exact enough at these magnitudes). -/
def partsPerYear (y : Nat) (ys : Nat × Nat) (pd : Nat) : Nat :=
  (totalDaysFY y ys + pd - 1) / pd

/-- The loop's `part_start = by_start + part_duration * (part_num - 1)` as an ordinal. -/
def partStartOrd (y : Nat) (ys : Nat × Nat) (pd k : Nat) : Nat :=
  byStartOrd y ys + pd * (k - 1)

/-- The loop's `part_end`: 28 days less a day for all but the last part, which runs to
`by_end`. -/
def partEndOrd (y : Nat) (ys : Nat × Nat) (pd k : Nat) : Nat :=
  if k < partsPerYear y ys pd then partStartOrd y ys pd k + pd - 1
  else byEndOrd y ys

/-- The business-year code, year followed by the next year's last two digits: 2024 becomes "202425". -/
def yearCode (y : Nat) : String :=
  toString y ++ (toString (y + 1)).drop 2

/-- The part code, a zero-padded two-digit part number after a P: 1 becomes "P01". -/
def partCode (k : Nat) : String :=
  "P" ++ (if k < 10 then "0" ++ toString k else toString k)

/-- The part numbers of the fiscal year starting in `y` whose period
intersects the requested `[sOrd, eOrd]` ordinal window (the inner loop's
`part_start <= end_date and part_end >= start_date` test). -/
def partsForYear (y : Nat) (ys : Nat × Nat) (pd : Nat) (sOrd eOrd : Nat) :
    List Nat :=
  (List.range (partsPerYear y ys pd)).filterMap fun i =>
    let k := i + 1
    if partStartOrd y ys pd k ≤ eOrd ∧ sOrd ≤ partEndOrd y ys pd k
    then some k else none

/-- Python `set.add` on the insertion-ordered list model of a set. -/
def setAdd (s : List String) (p : String) : List String :=
  if p ∈ s then s else s ++ [p]

/-- Python `periods.setdefault(code, set()).add(part)` on the association-list model
of the dict. -/
def dictAdd : List (String × List String) → String → String →
    List (String × List String)
  | [], c, p => [(c, [p])]
  | (c', ps) :: rest, c, p =>
    if c' = c then (c', setAdd ps p) :: rest else (c', ps) :: dictAdd rest c p

/-- Folding `dictAdd` over a list of (code, part) pairs; the nested
year/part loops of `_build_business_period_map` written as one fold over
the flattened iteration sequence. -/
def addAll (m : List (String × List String)) (pairs : List (String × String)) :
    List (String × List String) :=
  pairs.foldl (fun acc cp => dictAdd acc cp.1 cp.2) m

/-- The full (code, part) iteration sequence of `_build_business_period_map`:
years ascending from the business year of `s` to that of `e`, part numbers
ascending within each year. -/
def businessPeriodPairs (s e : PyDate) (ys : Nat × Nat) (pd : Nat) :
    List (String × String) :=
  let sy := (_business_year_start s ys).year
  let ey := (_business_year_start e ys).year
  (List.range (ey + 1 - sy)).flatMap fun i =>
    let y := sy + i
    (partsForYear y ys pd s.ord e.ord).map fun k => (yearCode y, partCode k)

/-- Function `_build_business_period_map` from `rail_io/extract_delay.py` (the copies
in `rail_io/delay_processer.py` and, modulo emitting `delay_`-prefixed flat
codes, `features/extract_incidents.py` share this logic): raises
`ValueError` when `start_date > end_date`, otherwise maps each business-year
code intersecting the window to the set of its intersecting period parts. -/
def _build_business_period_map (s e : PyDate) (ys : Nat × Nat) (pd : Nat) :
    Except PyErr (List (String × List String)) :=
  if PyDate.Lt e s then .error (.valueError "start_date must be <= end_date")
  else .ok (addAll [] (businessPeriodPairs s e ys pd))

/-! ## `rail_io/extract_delay.py`: `get_delay_dataset` -/

/-- Embeds the call `_build_business_period_map(start_date, end_date,
_YEAR_START)` made by `get_delay_dataset`: the callee declares `year_start`
and `part_duration` as keyword-only parameters (they follow a bare `*` in
its signature), so passing `_YEAR_START` as a third positional argument
raises `TypeError: _build_business_period_map() takes 2 positional
arguments but 3 were given` before the callee's body runs. -/
def buildBusinessPeriodMapPositional (s e : PyDate) (ys : Nat × Nat) :
    Except PyErr (List (String × List String)) :=
  .error .typeError

/-- Embeds `_prune_business_period_map` as called from `get_delay_dataset`:
for each code it examines each part with `_check_folder(part_folder,
file_ext=..., required_parts=..., error=False)`, but `_check_folder` has no
`error` parameter, so the first part examined raises `TypeError:
_check_folder() got an unexpected keyword argument` -- only a map whose
codes all carry empty part sets (or the empty map) escapes the call. -/
def _prune_business_period_map (m : List (String × List String)) :
    Except PyErr (List (String × List String)) :=
  if m.all (fun cp => cp.2.isEmpty) then .ok [] else .error .typeError

/-- Function `get_delay_dataset` from `rail_io/extract_delay.py`: builds the
business-period map for the requested window, prunes the parts already
cached, and either returns `None` (nothing to do) or invokes
`extract_delay_dataset` on the missing periods.  Settings-based directory
resolution and the extraction call itself are abstracted away (extraction
is represented by returning the pruned map that would be passed to it);
the two `TypeError`-raising calls are embedded faithfully. -/
def get_delay_dataset (s e : PyDate) :
    Except PyErr (Option (List (String × List String))) := do
  let bp ← buildBusinessPeriodMapPositional s e _YEAR_START
  let pruned ← _prune_business_period_map bp
  if pruned.isEmpty then
    return none
  else
    return (some pruned)

/-! ## `features/utils.py`: `location_to_ELR_MIL` -/

/-- A pandas DataFrame holding the geospatial mapping, as far as
`location_to_ELR_MIL` inspects it: its (STANOX, ELR_MIL) rows. -/
structure GeoFrame where
  rows : List (String × String)

/-- Python truthiness of the `geo_df` argument in `if not geo_df:`:
`None` is falsy, and a pandas DataFrame (empty or not) raises `ValueError`
from `DataFrame.__bool__`. -/
def pyNotGeoDf : Option GeoFrame → Except PyErr Bool
  | none => .ok true
  | some _ => .error (.valueError "The truth value of a DataFrame is ambiguous.")

/-- Dictionary lookup built from an association list where later duplicate
keys overwrite earlier ones (Python `dict` construction order). -/
def dictGet (m : List (String × String)) (k : String) : Option String :=
  m.foldl (fun acc r => if r.1 = k then some r.2 else acc) none

/-- Function `location_to_ELR_MIL` from `features/utils.py`: the truthiness guard on
`geo_df`, then `geo_df.set_index("STANOX")["ELR_MIL"].to_dict()` and
`location_column.map(mapping)` (unmapped values become absent/NaN).  The
settings/`get_geospatial` loading in the `None` branch is abstracted to the
table it returns, `settingsGeo`. -/
def location_to_ELR_MIL (locationColumn : List String)
    (geoDf : Option GeoFrame) (settingsGeo : GeoFrame) :
    Except PyErr (List (Option String)) := do
  let b ← pyNotGeoDf geoDf
  let geo := if b then settingsGeo else geoDf.getD settingsGeo
  return locationColumn.map (dictGet geo.rows)

/-! ## `models/modelling.py`: `categorize_columns` -/

/-- The pandas dtype of a column, as far as `categorize_columns`
distinguishes dtypes. -/
inductive Dtype where
  | object
  | string
  | categorical
  | int64
  | float64
deriving DecidableEq

/-- Predicate `pandas.api.types.is_object_dtype`. -/
def is_object_dtype : Dtype → Bool
  | .object => true
  | _ => false

/-- Predicate `pandas.api.types.is_string_dtype` (also true of plain object dtype,
as in pandas). -/
def is_string_dtype : Dtype → Bool
  | .string => true
  | .object => true
  | _ => false

/-- Predicate `pandas.api.types.is_categorical_dtype`. -/
def is_categorical_dtype : Dtype → Bool
  | .categorical => true
  | _ => false

/-- Predicate `pandas.api.types.is_integer_dtype`. -/
def is_integer_dtype : Dtype → Bool
  | .int64 => true
  | _ => false

/-- One dataframe column as `categorize_columns` sees it: its name, its
dtype, and its `nunique(dropna=False)` distinct-value count. -/
structure Column where
  name : String
  dtype : Dtype
  nunique : Nat
deriving DecidableEq

/-- The per-column decision of `categorize_columns`' loop: `none` when the
column is the response (skipped), `some true` when appended to the
categorical list, `some false` when appended to the numeric list. -/
def classifyColumn (response : String) (cutoff : Nat)
    (forceNumeric : List String) (c : Column) : Option Bool :=
  if c.name = response then none
  else if c.name ∈ forceNumeric then some false
  else if is_object_dtype c.dtype || is_string_dtype c.dtype
      || is_categorical_dtype c.dtype
      || (is_integer_dtype c.dtype && decide (c.nunique ≤ cutoff))
    then some true
  else some false

/-- One loop step of `categorize_columns`, appending the column name to the
numeric or categorical list. -/
def categorizeStep (response : String) (cutoff : Nat)
    (forceNumeric : List String) (acc : List String × List String)
    (c : Column) : List String × List String :=
  match classifyColumn response cutoff forceNumeric c with
  | none => acc
  | some true => (acc.1, acc.2 ++ [c.name])
  | some false => (acc.1 ++ [c.name], acc.2)

/-- Function `categorize_columns` from `models/modelling.py`: the (numeric,
categorical) column-name lists, in column order.  Source defaults:
`response = "y"`, `cat_unique_cutoff = 20`,
`force_numeric = ("train_count",)`. -/
def categorize_columns (cols : List Column) (response : String)
    (cutoff : Nat) (forceNumeric : List String) :
    List String × List String :=
  cols.foldl (categorizeStep response cutoff forceNumeric) ([], [])

/-! ## `features/streaming_train_counts.py`: `_build_hourly_counts` -/

/-- One exploded calendar row as the counting stage of
`_build_hourly_counts` consumes it: the ELR_MIL key and the
departure/arrival timestamps floored to absolute hour indices
(`dep_h`/`arr_h` in the code).  The code's prior step guarantees
`dep_dt <= arr_dt` (a day is added to `arr_dt` otherwise), hence
`depH <= arrH` hypotheses in the theorems. -/
structure HourRow where
  loc : String
  depH : Int
  arrH : Int
deriving DecidableEq

/-- The difference array built by the two `np.add.at` calls: the accumulated
+1 at each row's departure hour and -1 at one past its arrival hour, for a
given ELR_MIL at absolute hour `i`. -/
def diffAt : List HourRow → String → Int → Int
  | [], _, _ => 0
  | r :: rs, l, i =>
    diffAt rs l i + (if r.loc = l ∧ i = r.depH then 1 else 0)
      - (if r.loc = l ∧ i = r.arrH + 1 then 1 else 0)

/-- The row of `diff.cumsum(axis=1)` for ELR_MIL `l` at absolute hour `h`:
column `j` of the cumulative sum is hour `minH + j` where `minH` is the
dataset's minimum departure hour (`min_h` in the code). -/
def cumCount (rows : List HourRow) (minH : Int) (l : String) (h : Int) : Int :=
  ∑ i ∈ Finset.Icc minH h, diffAt rows l i

/-- The naive per-hour enumeration described by the spec: the number of rows
at `l` whose inclusive `[depH, arrH]` hour span contains `h`. -/
def naiveCount (rows : List HourRow) (l : String) (h : Int) : Int :=
  ((rows.filter (fun r => decide (r.loc = l ∧ r.depH ≤ h ∧ h ≤ r.arrH))).length : Int)

/-! ## `io/utils.py`: `get_cache` -/

/-- The keys of `_INPUT_READERS` in `io/utils.py`. -/
def inputReaderKeys : List String := ["csv", "parquet", "json"]

/-- Python `pathlib.PurePath.suffix`: the file name's extension including its
leading dot, or "" when the name has no dot, only a leading dot, or a
trailing dot. -/
def pathSuffix (name : String) : String :=
  let rev := name.toList.reverse
  let ext := rev.takeWhile (fun c => c ≠ '.')
  let rest := rev.dropWhile (fun c => c ≠ '.')
  if rest = [] ∨ rest.tail = [] ∨ ext = [] then "" else ⟨'.' :: ext.reverse⟩

/-- Python `pathlib.PurePath.stem`: the file name with its suffix removed. -/
def pathStem (name : String) : String :=
  ⟨name.toList.take (name.toList.length - (pathSuffix name).toList.length)⟩

/-- One entry of `cache_path.parent.iterdir()`: its file name and its
`is_file()` status. -/
structure DirEntry where
  name : String
  isFile : Bool
deriving DecidableEq

/-- The `candidates` comprehension in `get_cache`: sibling regular files
sharing the cache file's stem with a different suffix whose suffix is `in
_INPUT_READERS` -- note the comparison of `p.suffix` (which keeps its
leading dot) against the dot-less reader keys, and the listed hint string
`f".{p.suffix}"` (a second dot prepended). -/
def getCacheCandidates (entries : List DirEntry) (cacheName : String) :
    List String :=
  (entries.filter (fun p => p.isFile
      && pathStem p.name == pathStem cacheName
      && pathSuffix p.name != pathSuffix cacheName
      && decide (pathSuffix p.name ∈ inputReaderKeys))).map
    (fun p => "." ++ pathSuffix p.name)

/-- The `FileNotFoundError` message built by `get_cache` (the `!r` reprs of
the input path and generator are abstracted into the presence flags; the
cache path repr into its name). -/
def getCacheMsg (cacheName : String) (inputGiven genGiven : Bool)
    (candidates : List String) : String :=
  "No cache file found at " ++ cacheName
    ++ (if inputGiven then " and input file does not exist." else "")
    ++ (if genGiven then " and input function does not exist." else "")
    ++ (if candidates ≠ [] then
          " Did you mean one of these formats? " ++ String.intercalate ", " candidates
        else "")

/-- Function `get_cache` from `io/utils.py`.  Reading the cache and running the
generator are abstracted to the opaque outcomes `readResult`/`genResult`;
modelled exactly are the dispatch (parent-directory check, cache hit,
generate when the input path exists and a callable generator is supplied,
else raise) and the candidate/message construction.  `inputExists` is
`none` when `input_path` is None, otherwise `some` of its `exists()`. -/
def get_cache (α : Type) (readResult genResult : α) (parentIsDir : Bool)
    (entries : List DirEntry) (cacheName : String) (cacheExists : Bool)
    (inputExists : Option Bool) (genGiven : Bool) : Except PyErr α :=
  if ¬ parentIsDir then
    .error (.valueError "is not a directory")
  else
    let candidates := getCacheCandidates entries cacheName
    if cacheExists then .ok readResult
    else if inputExists = some true ∧ genGiven = true then .ok genResult
    else .error (.fileNotFound
      (getCacheMsg cacheName inputExists.isSome genGiven candidates))

/-! ## `models/severity.py`: `sample_incident_durations` -/

/-- State of a `numpy.random.Generator`: the seed it was constructed from
and how many draws it has consumed.  The PCG64 bit stream itself is
abstracted into ambient stream functions (parameters `intStream` for
`Generator.integers` and `weibullStream` for `Generator.weibull`, both
functions of the seed, the position in the stream, and the call arguments
only), quantified over in the theorems. -/
structure GenState where
  seed : Int
  counter : Nat
deriving DecidableEq

/-- Python `np.random.default_rng(rng)`: an existing generator is returned as-is
(sharing its state); an integer seed yields a fresh generator at stream
position 0.  (The `rng=None` entropy-seeded case is outside the claim.) -/
def default_rng : GenState ⊕ Int → GenState
  | .inl g => g
  | .inr s => ⟨s, 0⟩

/-- Column 0 (`k`, the Weibull shape) of a posterior row. -/
def rowK : List ℚ → ℚ
  | k :: _ => k
  | [] => 0

/-- Column 1 (`lambda`, the Weibull scale) of a posterior row. -/
def rowLam : List ℚ → ℚ
  | _ :: l :: _ => l
  | _ => 0

/-- Function `sample_incident_durations` from `models/severity.py`: validates the
(n, 2) shape of the posterior array (a ragged or empty list does not form a
2-column 2-d array) and `n_incidents >= 1`, then draws `n_incidents`
posterior row indices uniformly at random followed by one Weibull(k) draw
per incident, scaled by the chosen row's lambda.  Sample values are real
numbers in the source; they are represented in ℚ through the abstract draw
streams.  Returns the durations and the advanced generator state. -/
def sample_incident_durations (intStream : Int → Nat → Nat → Nat)
    (weibullStream : Int → Nat → ℚ → ℚ)
    (posterior : List (List ℚ)) (nIncidents : Int) (rng : GenState ⊕ Int) :
    Except PyErr (List ℚ × GenState) :=
  let g := default_rng rng
  if posterior = [] ∨ ¬ (∀ r ∈ posterior, r.length = 2) then
    .error (.valueError
      "posterior_samples must be an array-like of shape (n, 2) with columns (k, lambda)")
  else if nIncidents < 1 then
    .error (.valueError "n_incidents must be at least 1")
  else
    let n := nIncidents.toNat
    let rows := posterior.length
    let durations := (List.range n).map (fun j =>
      let i := intStream g.seed (g.counter + j) rows
      weibullStream g.seed (g.counter + n + j) (rowK (posterior.getD i []))
        * rowLam (posterior.getD i []))
    .ok (durations, ⟨g.seed, g.counter + 2 * n⟩)

/-! ## `rail_io/cif_hop_extract.py`: CIF hop extraction -/

/-- Function `slice_field(rec, start, length)` = `rec[start-1 : start-1+length]`
(Python slices clamp at the string's end). -/
def slice_field (rec : String) (start length : Nat) : String :=
  ⟨(rec.toList.drop (start - 1)).take length⟩

/-- Python `str.strip()` on the space-padded CIF fields. -/
def pyStrip (s : String) : String :=
  ⟨((s.toList.dropWhile (fun c => c = ' ')).reverse.dropWhile
      (fun c => c = ' ')).reverse⟩

/-- Python `str.rstrip()`. -/
def pyRstrip (s : String) : String :=
  ⟨(s.toList.reverse.dropWhile (fun c => c = ' ')).reverse⟩

/-- Decimal value of a digit list, as Python `int` reads it. -/
def digitsToNat (cs : List Char) : Nat :=
  cs.foldl (fun acc c => 10 * acc + (c.toNat - 48)) 0

/-- Python `t.zfill(4)`. -/
def zfill4 (cs : List Char) : List Char :=
  List.replicate (4 - cs.length) '0' ++ cs

/-- Function `_normalize_time`: strip, require 1..5 digits, zero-pad to 4, validate
hour < 24 and minute < 60, and return the zero-padded digit string. -/
def _normalize_time (raw : String) : Option String :=
  let t := (pyStrip raw).toList
  if 1 ≤ t.length ∧ t.length ≤ 5 ∧ t.all (fun c => c.isDigit) then
    let t4 := zfill4 t
    let hh := digitsToNat (t4.take 2)
    let mm := digitsToNat (t4.drop 2)
    if hh < 24 ∧ mm < 60 then some ⟨t4⟩ else none
  else none

/-- Function `_seconds_since_midnight` (despite its name, it computes minutes):
`int(hhmm[:2]) * 60 + int(hhmm[2:])`. -/
def _seconds_since_midnight (hhmm : String) : Nat :=
  digitsToNat (hhmm.toList.take 2) * 60 + digitsToNat (hhmm.toList.drop 2)

/-- The `Hop` dataclass of `cif_hop_extract.py`. -/
structure Hop where
  train_id : String
  train_service_id : String
  stanox_dep : String
  stanox_arr : String
  daysofweek : String
  dep_time : String
  start_date : String
  end_date : String
deriving DecidableEq

/-- The mutable loop state of `iter_hops` (reset on each `BS` record). -/
structure HopScanState where
  last_dep_time : Option String
  last_stanox : Option String
  train_id : String
  train_service_code : String
  days_run : String
  run_from : String
  run_to : String
deriving DecidableEq

/-- The initial scan state of `iter_hops`. -/
def initHopScanState : HopScanState := ⟨none, none, "", "", "0000000", "", ""⟩

/-- Python truthiness of an `Optional[str]` value. -/
def pyTruthy : Option String → Bool
  | none => false
  | some s => !s.isEmpty

/-- The arrival time an `LO`/`LI`/`LT` record carries (only `LI` does:
columns 11-14). -/
def lineArrTime (ln : String) : Option String :=
  if slice_field ln 1 2 = "LI" then _normalize_time (slice_field ln 11 4)
  else none

/-- The departure time an `LO`/`LI`/`LT` record carries (`LO`: columns
11-14; `LI`: columns 16-19). -/
def lineDepTime (ln : String) : Option String :=
  if slice_field ln 1 2 = "LO" then _normalize_time (slice_field ln 11 4)
  else if slice_field ln 1 2 = "LI" then _normalize_time (slice_field ln 16 4)
  else none

/-- Python `adj_days[-1] + adj_days[:-1]`: the day mask rotated right by one
position (last character moved to the front); Python raises `IndexError`
when the mask is empty. -/
def rotateDaysRight (s : String) : Except PyErr String :=
  match s.toList.getLast? with
  | none => .error .indexError
  | some c => .ok ⟨c :: s.toList.dropLast⟩

/-- The `if dep_hhmm:` tail of the loop body: remember the departure time
and its STANOX for the next record. -/
def hopScanUpdate (st : HopScanState) (stanox dep : Option String) :
    HopScanState :=
  if pyTruthy dep then { st with last_dep_time := dep, last_stanox := stanox }
  else st

/-- One record step of `iter_hops` from `rail_io/cif_hop_extract.py`:
given the TIPLOC-to-STANOX map and the current state, process one CIF line,
returning the new state and the emitted `Hop` (if any), or the exception
the Python body would raise (the `_seconds_since_midnight(None)` TypeError
when an `LI` record has an arrival but an invalid departure, the IndexError
of rotating an empty mask). -/
def iter_hops_step (tip2stanox : List (String × String)) (st : HopScanState)
    (ln : String) : Except PyErr (HopScanState × Option Hop) :=
  let rec2 := slice_field ln 1 2
  if rec2 = "BS" then
    .ok ({ last_dep_time := none, last_stanox := none,
           train_id := slice_field ln 4 6,
           train_service_code := slice_field ln 42 8,
           days_run := slice_field ln 22 7,
           run_from := slice_field ln 10 6,
           run_to := slice_field ln 16 6 }, none)
  else if rec2 ≠ "LO" ∧ rec2 ≠ "LI" ∧ rec2 ≠ "LT" then
    .ok (st, none)
  else
    let tip := pyRstrip (slice_field ln 3 7)
    let stanox := dictGet tip2stanox tip
    if ¬ pyTruthy stanox then
      .ok (st, none)
    else
      let arr_hhmm := lineArrTime ln
      let dep_hhmm := lineDepTime ln
      if pyTruthy st.last_stanox ∧ pyTruthy st.last_dep_time ∧ pyTruthy arr_hhmm then
        match dep_hhmm with
        | none => .error .typeError
        | some dep =>
          let last := st.last_dep_time.getD ""
          let adjE :=
            if _seconds_since_midnight dep < _seconds_since_midnight last
            then rotateDaysRight st.days_run else .ok st.days_run
          match adjE with
          | .error e => .error e
          | .ok adj =>
            .ok (hopScanUpdate st stanox dep_hhmm, some
              { train_id := st.train_id,
                train_service_id := st.train_service_code,
                stanox_dep := st.last_stanox.getD "",
                stanox_arr := stanox.getD "",
                daysofweek := adj,
                dep_time := last,
                start_date := st.run_from,
                end_date := st.run_to })
      else
        .ok (hopScanUpdate st stanox dep_hhmm, none)

/-- Function `iter_hops`: fold the record step over the line stream, collecting the
emitted hops in order. -/
def iter_hops (tip2stanox : List (String × String)) :
    List String → HopScanState → Except PyErr (List Hop)
  | [], _ => .ok []
  | ln :: rest, st =>
    match iter_hops_step tip2stanox st ln with
    | .error e => .error e
    | .ok (st', h) =>
      match iter_hops tip2stanox rest st' with
      | .error e => .error e
      | .ok hs => .ok (match h with | none => hs | some hop => hop :: hs)

/-! ## `features/streaming_train_counts.py`: `_explode_days` -/

/-- Nanoseconds per day (pandas timestamps are int64 nanosecond counts
since 1970-01-01). -/
def nsPerDay : Int := 86400000000000

/-- The nanosecond timestamp of midnight of a calendar date. -/
def dateNs (y m d : Nat) : Int :=
  ((toordinal y m d : Int) - (toordinal 1970 1 1 : Int)) * nsPerDay

/-- How `df["daysofweek"].to_numpy(dtype=np.uint16)` reads the day-mask
column: the value is the mask's decimal integer reading (the CSV cache
round-trip turns the 7-character string "0001000" into the integer 1000,
not binary 8), truncated to 16 bits by the uint16 cast. -/
def maskUint16 (mask : String) : Nat :=
  digitsToNat mask.toList % 65536

/-- One collapsed hop row as `_explode_days` sees it: the 7-character day
mask and the normalized (midnight) start/end timestamps in nanoseconds. -/
structure CollapsedHop where
  daysofweek : String
  startNs : Int
  endNs : Int

/-- pandas `.dt.normalize()` on a nanosecond timestamp: floor to midnight. -/
def normalizeNs (t : Int) : Int := t - t.emod nsPerDay

/-- pandas `.dt.weekday` (Monday = 0) of a nanosecond timestamp
(1970-01-01 was a Thursday). -/
def weekdayNs (t : Int) : Int := (t.fdiv nsPerDay + 3).emod 7

/-- The run dates `_explode_days` emits for one row and one weekday column
`dow` (0 = Mon .. 6 = Sun): none unless bit `6 - dow` of the uint16-read
mask is set; otherwise `counts = (end_date - start) // 7days + 1` dates
generated by `np.arange(s.value, s.value + 7_200_000_000_000 * n,
7_200_000_000_000)` -- the literal step being 7.2e12 ns = 2 hours, not
7 days -- each then `.normalize()`d. -/
def explodeDaysDow (r : CollapsedHop) (dow : Nat) : List Int :=
  if (maskUint16 r.daysofweek >>> (6 - dow)) % 2 = 1 then
    let start := r.startNs + ((dow : Int) - weekdayNs r.startNs).emod 7 * nsPerDay
    let counts := (r.endNs - start).fdiv (7 * nsPerDay) + 1
    (List.range counts.toNat).map
      (fun k => normalizeNs (start + 7200000000000 * (k : Int)))
  else []

/-- All run dates `_explode_days` emits for one row (its `_DOW_COLS` loop,
Monday..Sunday; the per-`dow` frames are concatenated, so a row's run-date
multiset is the concatenation over `dow`). -/
def explodeDaysDates (r : CollapsedHop) : List Int :=
  (List.range 7).flatMap (fun dow => explodeDaysDow r dow)

/-- The spec side of C1, following the spec's words: the explosion step is
specified to produce exactly the calendar dates in
`[start_date, end_date]` whose weekday position in the 7-character mask
(Monday first) holds the character '1'. -/
def specRunDates (r : CollapsedHop) : List Int :=
  (List.range (((r.endNs - r.startNs).fdiv nsPerDay).toNat + 1)).filterMap
    (fun k =>
      let d := r.startNs + (k : Int) * nsPerDay
      if r.daysofweek.toList.getD (weekdayNs d).toNat ' ' = '1'
      then some d else none)

/-- The spec's own Thursday-only example: mask "0001000", validity window
2024-01-01 (a Monday) to 2024-01-14 (a Sunday). -/
def thursdayHop : CollapsedHop := ⟨"0001000", dateNs 2024 1 1, dateNs 2024 1 14⟩

/-! ## Theorems -/

set_option maxHeartbeats 2000000 in
theorem totalDaysFY_eq (y : Nat) (hy : 1 ≤ y) :
    totalDaysFY y _YEAR_START = 365 + (if isLeap (y + 1) then 1 else 0) := by
  unfold totalDaysFY byEndOrd byStartOrd toordinal _YEAR_START
  have h4 : daysBeforeMonth 4 = 90 := rfl
  rw [h4]
  norm_num
  by_cases h1 : isLeap (y + 1) <;> by_cases h2 : isLeap y
  · rw [if_pos h1, if_pos h2]
    unfold isLeap at h1 h2
    omega
  · rw [if_pos h1, if_neg h2]
    unfold isLeap at h1 h2
    omega
  · rw [if_neg h1, if_pos h2]
    unfold isLeap at h1 h2
    omega
  · rw [if_neg h1, if_neg h2]
    unfold isLeap at h1 h2
    omega

theorem partsPerYear_eq (y : Nat) (hy : 1 ≤ y) :
    partsPerYear y _YEAR_START _PART_DURATION = 14 := by
  unfold partsPerYear _PART_DURATION
  rw [totalDaysFY_eq y hy]
  split_ifs <;> norm_num

theorem setAdd_mem {s : List String} {q p : String} (h : p ∈ setAdd s q) :
    p ∈ s ∨ p = q := by
  unfold setAdd at h
  split_ifs at h with hq
  · exact Or.inl h
  · rcases List.mem_append.mp h with h1 | h1
    · exact Or.inl h1
    · simp at h1
      exact Or.inr h1

theorem dictAdd_part_mem (P : String → Prop) (p0 : String) (h0 : P p0) :
    ∀ (m : List (String × List String)) (c : String),
      (∀ c' ps, (c', ps) ∈ m → ∀ p ∈ ps, P p) →
      ∀ c' ps, (c', ps) ∈ dictAdd m c p0 → ∀ p ∈ ps, P p := by
  intro m
  induction m with
  | nil =>
    intro c _ c' ps hmem p hp
    simp [dictAdd] at hmem
    rcases hmem with ⟨rfl, rfl⟩
    simp at hp
    rwa [hp]
  | cons hd tl ih =>
    intro c hm c' ps hmem p hp
    obtain ⟨a, qs⟩ := hd
    unfold dictAdd at hmem
    split_ifs at hmem with hac
    · rcases List.mem_cons.mp hmem with heq | htl
      · rw [Prod.mk.injEq] at heq
        obtain ⟨rfl, rfl⟩ := heq
        rcases setAdd_mem hp with hq | rfl
        · exact hm c' qs (List.mem_cons_self _ _) p hq
        · exact h0
      · exact hm c' ps (List.mem_cons_of_mem _ htl) p hp
    · rcases List.mem_cons.mp hmem with heq | htl
      · exact hm c' ps (heq ▸ List.mem_cons_self _ _) p hp
      · exact ih c (fun c'' ps'' h'' => hm c'' ps'' (List.mem_cons_of_mem _ h'')) c' ps htl p hp

theorem addAll_part_mem (P : String → Prop) :
    ∀ (pairs : List (String × String)) (m0 : List (String × List String)),
      (∀ c ps, (c, ps) ∈ m0 → ∀ p ∈ ps, P p) →
      (∀ cp ∈ pairs, P cp.2) →
      ∀ c ps, (c, ps) ∈ addAll m0 pairs → ∀ p ∈ ps, P p := by
  intro pairs
  induction pairs with
  | nil =>
    intro m0 h0 _ c ps hm p hp
    exact h0 c ps hm p hp
  | cons hd tl ih =>
    intro m0 h0 hpairs c ps hm p hp
    have hstep := dictAdd_part_mem P hd.2 (hpairs hd (List.mem_cons_self _ _)) m0 hd.1 h0
    exact ih (dictAdd m0 hd.1 hd.2) hstep
      (fun cp hcp => hpairs cp (List.mem_cons_of_mem _ hcp)) c ps hm p hp

theorem business_year_start_ge_one {s : PyDate} (hs : 2 ≤ s.year) :
    1 ≤ (_business_year_start s _YEAR_START).year := by
  unfold _business_year_start
  split_ifs <;> simp <;> omega

theorem businessPeriodPairs_part {s e : PyDate} (hs : 2 ≤ s.year) :
    ∀ cp ∈ businessPeriodPairs s e _YEAR_START _PART_DURATION,
      ∃ k, 1 ≤ k ∧ k ≤ 14 ∧ cp.2 = partCode k := by
  intro cp hcp
  unfold businessPeriodPairs at hcp
  simp only [List.mem_flatMap, List.mem_range, List.mem_map, List.mem_filterMap] at hcp
  obtain ⟨i, _, k, hk, rfl⟩ := hcp
  have hy : 1 ≤ (_business_year_start s _YEAR_START).year + i :=
    le_trans (business_year_start_ge_one hs) (Nat.le_add_right _ _)
  unfold partsForYear at hk
  simp only [List.mem_filterMap, List.mem_range] at hk
  obtain ⟨j, hj, hjk⟩ := hk
  rw [partsPerYear_eq _ hy] at hj
  split_ifs at hjk
  · injection hjk with hjk
    exact ⟨k, by omega, by omega, rfl⟩

/-- C2: `_build_business_period_map(2024-04-01, 2024-05-01)` returns exactly
the fiscal-year code "202425" mapped to exactly the parts {"P01", "P02"},
and for every `start_date <= end_date` pair the function returns normally
(the only raise in its body is the `start_date > end_date` guard). -/
theorem build_business_period_map_covers_apr2024 :
    _build_business_period_map ⟨2024, 4, 1⟩ ⟨2024, 5, 1⟩ _YEAR_START _PART_DURATION
      = .ok [("202425", ["P01", "P02"])] ∧
    ∀ s e : PyDate, PyDate.Le s e →
      ∃ m, _build_business_period_map s e _YEAR_START _PART_DURATION = .ok m := by
  refine ⟨by rfl, ?_⟩
  intro s e h
  refine ⟨addAll [] (businessPeriodPairs s e _YEAR_START _PART_DURATION), ?_⟩
  unfold _build_business_period_map
  rw [if_neg (PyDate.not_lt_of_le h)]

/-- Witness for C2 at the concrete window 2024-04-01 to 2024-05-01. -/
theorem build_business_period_map_covers_apr2024_witness :
    PyDate.Le ⟨2024, 4, 1⟩ ⟨2024, 5, 1⟩ ∧
    ∃ m, _build_business_period_map ⟨2024, 4, 1⟩ ⟨2024, 5, 1⟩ _YEAR_START
      _PART_DURATION = .ok m :=
  ⟨by decide, build_business_period_map_covers_apr2024.2 ⟨2024, 4, 1⟩ ⟨2024, 5, 1⟩
    (by decide)⟩

/-- C6 counterexample: a window containing 31 March 2025 makes
`_build_business_period_map` emit part "P14" for fiscal year "202425",
so period codes do carry part numbers greater than P13 (the claim's
"exactly 13 periods, never above P13" is false on the code: `ceil(365/28)`
is 14, not 13). -/
theorem business_period_map_emits_P14 :
    _build_business_period_map ⟨2025, 3, 31⟩ ⟨2025, 3, 31⟩ _YEAR_START _PART_DURATION
      = .ok [("202425", ["P14"])] ∧ ∀ k, k ≤ 13 → partCode k ≠ "P14" := by
  constructor
  · rfl
  · decide

/-- C6 amended: the business-period map divides each fiscal year (1 April to
31 March, 365 or 366 days) into `ceil(total_days/28)` = 14 consecutive
periods, the first 13 of exactly 28 days each and the 14th absorbing the
remaining 1 or 2 days; consequently every emitted period part is some "Pkk"
with 1 <= kk <= 14. -/
theorem business_period_map_fourteen_periods :
    (∀ y, 1 ≤ y →
      partsPerYear y _YEAR_START _PART_DURATION = 14 ∧
      365 ≤ totalDaysFY y _YEAR_START ∧ totalDaysFY y _YEAR_START ≤ 366 ∧
      (∀ k, 1 ≤ k → k ≤ 13 →
        partEndOrd y _YEAR_START _PART_DURATION k + 1
          - partStartOrd y _YEAR_START _PART_DURATION k = 28) ∧
      partEndOrd y _YEAR_START _PART_DURATION 14 + 1
        - partStartOrd y _YEAR_START _PART_DURATION 14
        = totalDaysFY y _YEAR_START - 364) ∧
    (∀ s e m, 2 ≤ s.year →
      _build_business_period_map s e _YEAR_START _PART_DURATION = .ok m →
      ∀ c ps, (c, ps) ∈ m → ∀ p ∈ ps, ∃ k, 1 ≤ k ∧ k ≤ 14 ∧ p = partCode k) := by
  constructor
  · intro y hy
    have hp := partsPerYear_eq y hy
    have ht := totalDaysFY_eq y hy
    refine ⟨hp, ?_, ?_, ?_, ?_⟩
    · rw [ht]; split_ifs <;> omega
    · rw [ht]; split_ifs <;> omega
    · intro k h1k hk
      unfold partEndOrd
      rw [hp, if_pos (by omega)]
      unfold partStartOrd _PART_DURATION
      omega
    · unfold partEndOrd
      rw [hp, if_neg (by omega)]
      unfold partStartOrd totalDaysFY _PART_DURATION
      unfold totalDaysFY at ht
      split_ifs at ht <;> omega
  · intro s e m hs hm c ps hcps p hp
    unfold _build_business_period_map at hm
    split_ifs at hm
    injection hm with hm
    subst hm
    exact addAll_part_mem (fun q => ∃ k, 1 ≤ k ∧ k ≤ 14 ∧ q = partCode k)
      (businessPeriodPairs s e _YEAR_START _PART_DURATION) [] (by simp)
      (businessPeriodPairs_part hs) c ps hcps p hp

/-- Witness for the amended C6 at fiscal year 2024 and the concrete
window 2025-03-31 to 2025-03-31. -/
theorem business_period_map_fourteen_periods_witness :
    (1 ≤ 2024 ∧ partsPerYear 2024 _YEAR_START _PART_DURATION = 14) ∧
    (2 ≤ (⟨2025, 3, 31⟩ : PyDate).year ∧
      ∃ k, 1 ≤ k ∧ k ≤ 14 ∧ "P14" = partCode k) :=
  ⟨⟨by decide, (business_period_map_fourteen_periods.1 2024 (by decide)).1⟩,
    ⟨by decide, business_period_map_fourteen_periods.2 ⟨2025, 3, 31⟩ ⟨2025, 3, 31⟩
      [("202425", ["P14"])] (by decide) (by rfl) "202425" ["P14"] (by simp)
      "P14" (by simp)⟩⟩

/-- C5 (code bug): every call of `get_delay_dataset` raises `TypeError`
before any pruning happens (it passes the keyword-only `year_start`
positionally; the pruning it would then do calls `_check_folder` with the
nonexistent keyword `error`), so it never returns `None` and never invokes
extraction, contradicting both the claim and the function's docstring. -/
theorem get_delay_dataset_always_raises_type_error :
    (∀ s e : PyDate, get_delay_dataset s e = .error .typeError) ∧
    get_delay_dataset ⟨2024, 4, 1⟩ ⟨2024, 5, 1⟩ = .error .typeError :=
  ⟨fun _ _ => rfl, rfl⟩

/-- C10: supplying an explicit geospatial dataframe makes
`location_to_ELR_MIL` raise pandas' ambiguous-truth `ValueError` before any
lookup, so the documented STANOX-to-ELR_MIL mapping behaviour (with
unmapped values becoming absent) is reachable only with `geo_df`
omitted/None, in which case each STANOX is mapped through the
settings-loaded table. -/
theorem location_to_ELR_MIL_truthiness_guard :
    (∀ (col : List String) (df : GeoFrame) (sg : GeoFrame),
      location_to_ELR_MIL col (some df) sg
        = .error (.valueError "The truth value of a DataFrame is ambiguous.")) ∧
    (∀ (col : List String) (sg : GeoFrame),
      location_to_ELR_MIL col none sg = .ok (col.map (dictGet sg.rows))) :=
  ⟨fun _ _ _ => rfl, fun _ _ => rfl⟩

theorem categorize_fold_mono (response : String) (cutoff : Nat)
    (forceNumeric : List String) :
    ∀ (cols : List Column) (acc : List String × List String) (x : String),
      (x ∈ acc.1 →
        x ∈ (cols.foldl (categorizeStep response cutoff forceNumeric) acc).1) ∧
      (x ∈ acc.2 →
        x ∈ (cols.foldl (categorizeStep response cutoff forceNumeric) acc).2) := by
  intro cols
  induction cols with
  | nil => intro acc x; exact ⟨id, id⟩
  | cons hd tl ih =>
    intro acc x
    constructor
    · intro hx
      simp only [List.foldl_cons]
      refine (ih (categorizeStep response cutoff forceNumeric acc hd) x).1 ?_
      unfold categorizeStep
      cases classifyColumn response cutoff forceNumeric hd with
      | none => exact hx
      | some b =>
        cases b with
        | true => exact hx
        | false => exact List.mem_append.mpr (Or.inl hx)
    · intro hx
      simp only [List.foldl_cons]
      refine (ih (categorizeStep response cutoff forceNumeric acc hd) x).2 ?_
      unfold categorizeStep
      cases classifyColumn response cutoff forceNumeric hd with
      | none => exact hx
      | some b =>
        cases b with
        | false => exact hx
        | true => exact List.mem_append.mpr (Or.inl hx)

theorem categorize_fold_mem (response : String) (cutoff : Nat)
    (forceNumeric : List String) :
    ∀ (cols : List Column) (acc : List String × List String) (c : Column),
      c ∈ cols →
      (classifyColumn response cutoff forceNumeric c = some false →
        c.name ∈ (cols.foldl (categorizeStep response cutoff forceNumeric) acc).1) ∧
      (classifyColumn response cutoff forceNumeric c = some true →
        c.name ∈ (cols.foldl (categorizeStep response cutoff forceNumeric) acc).2) := by
  intro cols
  induction cols with
  | nil => intro acc c hc; exact absurd hc (List.not_mem_nil c)
  | cons hd tl ih =>
    intro acc c hc
    rcases List.mem_cons.mp hc with rfl | htl
    · constructor
      · intro hcl
        simp only [List.foldl_cons]
        refine (categorize_fold_mono response cutoff forceNumeric tl _ c.name).1 ?_
        unfold categorizeStep
        rw [hcl]
        simp
      · intro hcl
        simp only [List.foldl_cons]
        refine (categorize_fold_mono response cutoff forceNumeric tl _ c.name).2 ?_
        unfold categorizeStep
        rw [hcl]
        simp
    · exact ih (categorizeStep response cutoff forceNumeric acc hd) c htl

/-- C9: with the source defaults (response "y", cutoff 20, force-numeric
list ("train_count",)), a non-response integer column with exactly 20
distinct values is classified categorical, one with 21 distinct values is
classified numeric, and a column named in the force-numeric list is
classified numeric regardless of its distinct-value count. -/
theorem categorize_columns_cutoff_boundary :
    ∀ (cols : List Column) (c : Column), c ∈ cols → c.name ≠ "y" →
      (c.dtype = .int64 → c.name ∉ (["train_count"] : List String) →
        c.nunique = 20 →
        c.name ∈ (categorize_columns cols "y" 20 ["train_count"]).2) ∧
      (c.dtype = .int64 → c.name ∉ (["train_count"] : List String) →
        c.nunique = 21 →
        c.name ∈ (categorize_columns cols "y" 20 ["train_count"]).1) ∧
      (c.name ∈ (["train_count"] : List String) →
        c.name ∈ (categorize_columns cols "y" 20 ["train_count"]).1) := by
  intro cols c hc hresp
  refine ⟨?_, ?_, ?_⟩
  · intro hdt hforce hnu
    refine (categorize_fold_mem "y" 20 ["train_count"] cols ([], []) c hc).2 ?_
    unfold classifyColumn
    rw [if_neg hresp, if_neg hforce, if_pos]
    rw [hdt, hnu]
    decide
  · intro hdt hforce hnu
    refine (categorize_fold_mem "y" 20 ["train_count"] cols ([], []) c hc).1 ?_
    unfold classifyColumn
    rw [if_neg hresp, if_neg hforce, if_neg]
    rw [hdt, hnu]
    decide
  · intro hforce
    refine (categorize_fold_mem "y" 20 ["train_count"] cols ([], []) c hc).1 ?_
    unfold classifyColumn
    rw [if_neg hresp, if_pos hforce]

/-- Witness for C9 on a three-column frame: an integer column with 20
distinct values lands in the categorical list, one with 21 in the numeric
list, and `train_count` (100 distinct values) in the numeric list. -/
theorem categorize_columns_cutoff_boundary_witness :
    ("a" : String) ∈ (categorize_columns
      [⟨"a", .int64, 20⟩, ⟨"b", .int64, 21⟩, ⟨"train_count", .int64, 100⟩]
      "y" 20 ["train_count"]).2 ∧
    ("b" : String) ∈ (categorize_columns
      [⟨"a", .int64, 20⟩, ⟨"b", .int64, 21⟩, ⟨"train_count", .int64, 100⟩]
      "y" 20 ["train_count"]).1 ∧
    ("train_count" : String) ∈ (categorize_columns
      [⟨"a", .int64, 20⟩, ⟨"b", .int64, 21⟩, ⟨"train_count", .int64, 100⟩]
      "y" 20 ["train_count"]).1 :=
  ⟨(categorize_columns_cutoff_boundary _ ⟨"a", .int64, 20⟩ (by decide)
      (by decide)).1 rfl (by decide) rfl,
   (categorize_columns_cutoff_boundary _ ⟨"b", .int64, 21⟩ (by decide)
      (by decide)).2.1 rfl (by decide) rfl,
   (categorize_columns_cutoff_boundary _ ⟨"train_count", .int64, 100⟩ (by decide)
      (by decide)).2.2 (by decide)⟩

/-- C4: for every set of exploded rows, every ELR_MIL and every hour from
the materialized axis (hours at or after the minimum departure hour `minH`,
with `minH` a lower bound of all departures as in the code), the
difference-array count (+1 at the departure hour, -1 past the arrival hour,
cumulative sum) equals the naive enumeration of rows whose inclusive
departure-to-arrival hour span covers the hour. -/
theorem hourly_counts_diff_array_equals_naive :
    ∀ (rows : List HourRow) (minH h : Int) (l : String),
      (∀ r ∈ rows, minH ≤ r.depH) →
      (∀ r ∈ rows, r.depH ≤ r.arrH) →
      minH ≤ h →
      cumCount rows minH l h = naiveCount rows l h := by
  intro rows minH h l hmin hda hh
  induction rows with
  | nil => simp [cumCount, diffAt, naiveCount]
  | cons r rs ih =>
    have hmin' : ∀ q ∈ rs, minH ≤ q.depH := fun q hq => hmin q (List.mem_cons_of_mem _ hq)
    have hda' : ∀ q ∈ rs, q.depH ≤ q.arrH := fun q hq => hda q (List.mem_cons_of_mem _ hq)
    have hrd : minH ≤ r.depH := hmin r (List.mem_cons_self _ _)
    have hra : r.depH ≤ r.arrH := hda r (List.mem_cons_self _ _)
    have hsum : cumCount (r :: rs) minH l h =
        cumCount rs minH l h
          + (∑ i ∈ Finset.Icc minH h, if r.loc = l ∧ i = r.depH then (1:Int) else 0)
          - (∑ i ∈ Finset.Icc minH h, if r.loc = l ∧ i = r.arrH + 1 then (1:Int) else 0) := by
      unfold cumCount
      rw [← Finset.sum_add_distrib, ← Finset.sum_sub_distrib]
      refine Finset.sum_congr rfl ?_
      intro i _
      simp [diffAt]
    have hind1 : (∑ i ∈ Finset.Icc minH h, if r.loc = l ∧ i = r.depH then (1:Int) else 0)
        = if r.loc = l ∧ minH ≤ r.depH ∧ r.depH ≤ h then 1 else 0 := by
      by_cases hl : r.loc = l
      · simp only [hl, true_and]
        rw [Finset.sum_ite_eq' (Finset.Icc minH h) r.depH (fun _ => (1:Int))]
        simp [Finset.mem_Icc]
      · simp [hl]
    have hind2 : (∑ i ∈ Finset.Icc minH h, if r.loc = l ∧ i = r.arrH + 1 then (1:Int) else 0)
        = if r.loc = l ∧ minH ≤ r.arrH + 1 ∧ r.arrH + 1 ≤ h then 1 else 0 := by
      by_cases hl : r.loc = l
      · simp only [hl, true_and]
        rw [Finset.sum_ite_eq' (Finset.Icc minH h) (r.arrH + 1) (fun _ => (1:Int))]
        simp [Finset.mem_Icc]
      · simp [hl]
    have hnaive : naiveCount (r :: rs) l h = naiveCount rs l h
        + (if r.loc = l ∧ r.depH ≤ h ∧ h ≤ r.arrH then 1 else 0) := by
      unfold naiveCount
      rw [List.filter_cons]
      by_cases hc : r.loc = l ∧ r.depH ≤ h ∧ h ≤ r.arrH
      · rw [if_pos (by simpa using hc), if_pos hc]
        push_cast [List.length_cons]
        ring
      · rw [if_neg (by simpa using hc), if_neg hc]
        simp
    rw [hsum, hind1, hind2, hnaive, ih hmin' hda']
    by_cases hl : r.loc = l <;> simp [hl] <;> split_ifs <;> omega

/-- Witness for C4: a single hop at ELR_MIL "L" departing hour 5 and
arriving hour 7 contributes exactly 1 to buckets 5, 6, 7 and 0 to bucket 8
and to another ELR_MIL, matching the naive enumeration. -/
theorem hourly_counts_diff_array_equals_naive_witness :
    (∀ r ∈ [(⟨"L", 5, 7⟩ : HourRow)], (5:Int) ≤ r.depH) ∧
    (∀ r ∈ [(⟨"L", 5, 7⟩ : HourRow)], r.depH ≤ r.arrH) ∧
    ((5:Int) ≤ 6) ∧
    cumCount [⟨"L", 5, 7⟩] 5 "L" 6 = naiveCount [⟨"L", 5, 7⟩] "L" 6 ∧
    cumCount [⟨"L", 5, 7⟩] 5 "L" 5 = 1 ∧
    cumCount [⟨"L", 5, 7⟩] 5 "L" 6 = 1 ∧
    cumCount [⟨"L", 5, 7⟩] 5 "L" 7 = 1 ∧
    cumCount [⟨"L", 5, 7⟩] 5 "L" 8 = 0 ∧
    cumCount [⟨"L", 5, 7⟩] 5 "M" 6 = 0 :=
  ⟨by decide, by decide, by decide,
   hourly_counts_diff_array_equals_naive [⟨"L", 5, 7⟩] 5 6 "L"
     (by decide) (by decide) (by decide),
   by decide, by decide, by decide, by decide, by decide⟩

theorem pathSuffix_shape (name : String) :
    pathSuffix name = "" ∨ ∃ cs : List Char, pathSuffix name = ⟨'.' :: cs⟩ := by
  simp only [pathSuffix]
  split_ifs with hb
  · exact Or.inl rfl
  · exact Or.inr ⟨_, rfl⟩

theorem pathSuffix_not_reader_key (name : String) :
    pathSuffix name ∉ inputReaderKeys := by
  rcases pathSuffix_shape name with h | ⟨cs, h⟩ <;> rw [h] <;> intro hmem <;>
    simp [inputReaderKeys, String.ext_iff] at hmem

theorem getCacheCandidates_nil (entries : List DirEntry) (cacheName : String) :
    getCacheCandidates entries cacheName = [] := by
  unfold getCacheCandidates
  rw [List.filter_eq_nil.mpr, List.map_nil]
  intro p _
  simp only [Bool.and_eq_true, decide_eq_true_eq]
  rintro ⟨-, hmem⟩
  exact pathSuffix_not_reader_key p.name hmem

/-- C7 (code bug): with the cache file absent and no usable (input,
generator) pair, `get_cache` does raise `FileNotFoundError`; but the
promised sibling-extension hint is dead code -- every `p.suffix` is "" or
starts with a dot while the `_INPUT_READERS` keys carry no dot, so the
candidate list is empty for every directory listing and the raised message
never contains the hint, even when a same-stem sibling in a supported
format exists (third conjunct: sibling `data.csv` next to the missing
`data.parquet`). -/
theorem get_cache_hint_never_proposed :
    (∀ entries cacheName, getCacheCandidates entries cacheName = []) ∧
    (∀ (α : Type) (r g : α) (entries : List DirEntry) (cacheName : String)
        (inputExists : Option Bool) (genGiven : Bool),
      ¬ (inputExists = some true ∧ genGiven = true) →
      get_cache α r g true entries cacheName false inputExists genGiven
        = .error (.fileNotFound
            (getCacheMsg cacheName inputExists.isSome genGiven []))) ∧
    get_cache Unit () () true [⟨"data.csv", true⟩] "data.parquet" false none false
      = .error (.fileNotFound "No cache file found at data.parquet") := by
  refine ⟨getCacheCandidates_nil, ?_, ?_⟩
  · intro α r g entries cacheName inputExists genGiven hng
    unfold get_cache
    rw [if_neg (by simp), if_neg (by simp), if_neg hng, getCacheCandidates_nil]
  · rfl

/-- Witness for C7 at the concrete listing containing `data.csv` while
`data.parquet` is the missing cache. -/
theorem get_cache_hint_never_proposed_witness :
    ¬ ((none : Option Bool) = some true ∧ false = true) ∧
    get_cache Unit () () true [⟨"data.csv", true⟩] "data.parquet" false none false
      = .error (.fileNotFound
          (getCacheMsg "data.parquet" (none : Option Bool).isSome false [])) :=
  ⟨by decide, get_cache_hint_never_proposed.2.1 Unit () () [⟨"data.csv", true⟩]
    "data.parquet" none false (by decide)⟩

theorem mapRange_getD {α : Type} (f : Nat → α) (n j : Nat) (d : α) (h : j < n) :
    ((List.range n).map f).getD j d = f j := by
  rw [List.getD_eq_getElem?_getD, List.getElem?_map, List.getElem?_range h]
  rfl

/-- C8: for every abstract draw stream, every (n, 2) posterior array and
every `n_incidents >= 1`, two calls of `sample_incident_durations` with the
same integer seed return the identical length-`n_incidents` array (and the
same final generator state): an integer seed always re-creates a fresh
generator at stream position 0, so the output is a function of the seed
and the inputs alone.  Each entry is a Weibull(k) draw scaled by lambda for
a posterior row index drawn uniformly from [0, rows). -/
theorem sample_incident_durations_deterministic :
    ∀ (intStream : Int → Nat → Nat → Nat) (weibullStream : Int → Nat → ℚ → ℚ)
      (posterior : List (List ℚ)) (n : Int) (seed : Int),
      (∀ sd c high, 0 < high → intStream sd c high < high) →
      posterior ≠ [] →
      (∀ r ∈ posterior, r.length = 2) →
      1 ≤ n →
      ∃ out gfin,
        sample_incident_durations intStream weibullStream posterior n (.inr seed)
          = .ok (out, gfin) ∧
        sample_incident_durations intStream weibullStream posterior n (.inr seed)
          = .ok (out, gfin) ∧
        out.length = n.toNat ∧
        ∀ j, j < n.toNat →
          ∃ i, i < posterior.length ∧ i = intStream seed j posterior.length ∧
            out.getD j 0 = weibullStream seed (n.toNat + j) (rowK (posterior.getD i []))
              * rowLam (posterior.getD i []) := by
  intro intStream weibullStream posterior n seed hstream hne hlen hn
  have hcond : ¬ (posterior = [] ∨ ¬ (∀ r ∈ posterior, r.length = 2)) := by
    push_neg
    exact ⟨hne, hlen⟩
  unfold sample_incident_durations default_rng
  rw [if_neg hcond, if_neg (by omega)]
  refine ⟨_, _, rfl, rfl, by simp, ?_⟩
  intro j hj
  refine ⟨intStream seed j posterior.length, ?_, rfl, ?_⟩
  · exact hstream seed j _ (List.length_pos.mpr hne)
  · rw [mapRange_getD _ _ _ _ hj]
    simp

/-- Witness for C8 at the spec's posterior `[[1,2],[2,3],[1.5,4]]`,
`n_incidents = 5`, seed 42, with concrete draw streams. -/
theorem sample_incident_durations_deterministic_witness :
    ∃ out gfin,
      sample_incident_durations (fun _ _ _ => 0) (fun _ _ k => k)
        [[1, 2], [2, 3], [3/2, 4]] 5 (.inr 42) = .ok (out, gfin) ∧
      sample_incident_durations (fun _ _ _ => 0) (fun _ _ k => k)
        [[1, 2], [2, 3], [3/2, 4]] 5 (.inr 42) = .ok (out, gfin) ∧
      out.length = (5:Int).toNat ∧
      ∀ j, j < (5:Int).toNat →
        ∃ i, i < ([[1, 2], [2, 3], [3/2, 4]] : List (List ℚ)).length ∧
          i = (fun (_ : Int) (_ : Nat) (_ : Nat) => 0) 42 j
            ([[1, 2], [2, 3], [3/2, 4]] : List (List ℚ)).length ∧
          out.getD j 0 = (fun (_ : Int) (_ : Nat) (k : ℚ) => k) 42 ((5:Int).toNat + j)
            (rowK (([[1, 2], [2, 3], [3/2, 4]] : List (List ℚ)).getD i []))
            * rowLam (([[1, 2], [2, 3], [3/2, 4]] : List (List ℚ)).getD i []) :=
  sample_incident_durations_deterministic (fun _ _ _ => 0) (fun _ _ k => k)
    [[1, 2], [2, 3], [3/2, 4]] 5 42 (fun _ _ _ h => h) (by decide) (by norm_num)
    (by norm_num)

/-- C3: whenever `iter_hops` emits a Hop for a record whose normalized
departure time and previous-stop departure time both exist, the emitted day
mask is the schedule's mask rotated right by one position (last character
to the front) exactly when the current departure's minutes-since-midnight
is strictly below the previous stop's, and the unchanged mask otherwise;
in particular the rotation fixes "1111111" and sends "1000000" to
"0100000". -/
theorem iter_hops_day_mask_rotation :
    (∀ (t2s : List (String × String)) (st : HopScanState) (ln : String)
        (st' : HopScanState) (hop : Hop) (dep last : String),
      iter_hops_step t2s st ln = .ok (st', some hop) →
      lineDepTime ln = some dep →
      st.last_dep_time = some last →
      ((_seconds_since_midnight dep < _seconds_since_midnight last →
          rotateDaysRight st.days_run = .ok hop.daysofweek) ∧
       (_seconds_since_midnight last ≤ _seconds_since_midnight dep →
          hop.daysofweek = st.days_run))) ∧
    rotateDaysRight "1111111" = .ok "1111111" ∧
    rotateDaysRight "1000000" = .ok "0100000" := by
  refine ⟨?_, by rfl, by rfl⟩
  intro t2s st ln st' hop dep last h hdep hlast
  unfold iter_hops_step at h
  dsimp only at h
  split_ifs at h with h1 h2 h3 h4
  · simp at h
  · simp at h
  · rw [hdep] at h
    dsimp only at h
    rw [hlast] at h
    dsimp only [Option.getD_some] at h
    split_ifs at h with hlt
    · cases hrot : rotateDaysRight st.days_run with
      | error e =>
        rw [hrot] at h
        simp at h
      | ok adj =>
        rw [hrot] at h
        simp only [Except.ok.injEq, Prod.mk.injEq, Option.some.injEq] at h
        obtain ⟨-, rfl⟩ := h
        constructor
        · intro _
          simpa using hrot
        · intro hge
          omega
    · simp only [Except.ok.injEq, Prod.mk.injEq, Option.some.injEq] at h
      obtain ⟨-, rfl⟩ := h
      constructor
      · intro hlt'
        exact absurd hlt' hlt
      · intro _
        rfl
  · simp at h
  · simp at h

/-- Witness for C3: an `LI` record arriving 09:30 and departing 09:35 after
a previous 10:00 departure, Monday-only mask "1000000"; the emitted hop
carries the rotated mask "0100000". -/
theorem iter_hops_day_mask_rotation_witness :
    ((_seconds_since_midnight "0935" < _seconds_since_midnight "1000" →
        rotateDaysRight "1000000" = .ok "0100000") ∧
     (_seconds_since_midnight "1000" ≤ _seconds_since_midnight "0935" →
        ("0100000" : String) = "1000000")) ∧
    (_seconds_since_midnight "0935" < _seconds_since_midnight "1000") :=
  ⟨iter_hops_day_mask_rotation.1 [("TIPLOC1", "54321")]
      ⟨some "1000", some "12345", "AAAAAA", "SVC00001", "1000000", "240101", "240601"⟩
      "LITIPLOC1 0930 0935"
      ⟨some "0935", some "54321", "AAAAAA", "SVC00001", "1000000", "240101", "240601"⟩
      ⟨"AAAAAA", "SVC00001", "12345", "54321", "0100000", "1000", "240101", "240601"⟩
      "0935" "1000" (by rfl) (by rfl) (by rfl),
    by decide⟩

/-- C1 (code bug): on the spec's own Thursday-only example (mask "0001000",
window Mon 2024-01-01 to Sun 2024-01-14) the canonical `_explode_days`
produces the dates Jan 1, 1, 2, 2, 4, 4 -- the uint16 read of the mask is
its decimal value 1000 whose bits 6..0 mark Monday, Tuesday and Thursday,
and the arange step of 7_200_000_000_000 ns is 2 hours, so each weekday's
"weekly" sequence collapses onto its first date -- instead of exactly the
Thursdays Jan 4 and Jan 11 required by the claim: the code emits a date
outside the specified set and misses a date inside it. -/
theorem train_count_explode_days_misreads_mask :
    explodeDaysDates thursdayHop
      = [dateNs 2024 1 1, dateNs 2024 1 1, dateNs 2024 1 2, dateNs 2024 1 2,
         dateNs 2024 1 4, dateNs 2024 1 4] ∧
    specRunDates thursdayHop = [dateNs 2024 1 4, dateNs 2024 1 11] ∧
    dateNs 2024 1 1 ∈ explodeDaysDates thursdayHop ∧
    dateNs 2024 1 1 ∉ specRunDates thursdayHop ∧
    dateNs 2024 1 11 ∈ specRunDates thursdayHop ∧
    dateNs 2024 1 11 ∉ explodeDaysDates thursdayHop :=
  ⟨by decide, by decide, by decide, by decide, by decide, by decide⟩

end NetRail
